import Mathlib

/-!
Verification development for the Guncad scraper (files `script_a.py` and
`script_b.py`).  The Python functions relevant to the specification's
testable properties are embedded shallowly: pure parsing and classification
helpers become Lean functions over `List Char` / `String`, the SQLite store
becomes an explicit record of row lists, and the stateful scraping steps
become explicit state transformers.  Machine-level concerns (HTTP, sleeping,
the event loop) are modelled at their observable boundary: a fetch result is
an `Option` of parsed page content, and network RPC responses are an
explicit outcome type.
-/

namespace GuncadSpec

/-! ### Character-level models of the Python string primitives used by the scraper.

All recursive definitions are structural so that concrete instances reduce
inside `decide` / `rfl`.  Strings are treated as sequences of code points,
which matches Python `str` semantics for slicing, `len`, `split`, `strip`
and (on ASCII escape sequences, the only ones exercised here) `unquote`. -/

/-- Value of a hexadecimal digit, used by percent-decoding. -/
def hexVal (c : Char) : Option Nat :=
  if '0' ≤ c ∧ c ≤ '9' then some (c.toNat - '0'.toNat)
  else if 'a' ≤ c ∧ c ≤ 'f' then some (c.toNat - 'a'.toNat + 10)
  else if 'A' ≤ c ∧ c ≤ 'F' then some (c.toNat - 'A'.toNat + 10)
  else none

/-- Percent-decoding of a character list: `%XY` with two hex digits becomes the
character with code `16*X + Y`; an invalid or truncated escape is kept
verbatim.  This models `urllib.parse.unquote` on ASCII escape sequences. -/
def unquoteL : List Char → List Char
  | [] => []
  | '%' :: a :: b :: rest =>
    match hexVal a, hexVal b with
    | some x, some y => Char.ofNat (16 * x + y) :: unquoteL rest
    | _, _ => '%' :: unquoteL (a :: b :: rest)
  | c :: rest => c :: unquoteL rest

/-- `urllib.parse.unquote` (percent-decoding). -/
def unquote (s : String) : String := ⟨unquoteL s.toList⟩

/-- `urllib.parse.unquote_plus`: replace `+` by a space, then percent-decode. -/
def unquote_plus (s : String) : String :=
  ⟨unquoteL (s.toList.map fun c => if c = '+' then ' ' else c)⟩

/-- Substring containment on character lists; models Python's `sub in hay`. -/
def containsSub (sub : List Char) : List Char → Bool
  | [] => sub.isEmpty
  | c :: rest => sub.isPrefixOf (c :: rest) || containsSub sub rest

/-- Python's `sub in hay` for strings. -/
def hasSubstr (hay sub : String) : Bool := containsSub sub.toList hay.toList

/-- Python's `s.split(sep)` for a one-character separator (no maxsplit):
`"" .split(c) = [""]`, separators are not collapsed. -/
def splitOnChar (sep : Char) : List Char → List (List Char)
  | [] => [[]]
  | c :: rest =>
    let groups := splitOnChar sep rest
    if c = sep then [] :: groups
    else
      match groups with
      | g :: gs => (c :: g) :: gs
      | [] => [[c]]

/-- Python's `s.split(sep, 1)` for a one-character separator: `none` when the
separator does not occur, otherwise the parts before and after its first
occurrence. -/
def splitFirst (sep : Char) : List Char → Option (List Char × List Char)
  | [] => none
  | c :: rest =>
    if c = sep then some ([], rest)
    else (splitFirst sep rest).map fun p => (c :: p.1, p.2)

/-- Python's `s.strip(c)` for a one-character strip set, on lists. -/
def stripChar (c : Char) (l : List Char) : List Char :=
  ((l.dropWhile (· = c)).reverse.dropWhile (· = c)).reverse

/-- Python's `s.strip(c)` for a one-character strip set. -/
def pyStrip (s : String) (c : Char) : String := ⟨stripChar c s.toList⟩

/-- Python's `s[:n]` (take the first `n` code points). -/
def pyTake (n : Nat) (s : String) : String := ⟨s.toList.take n⟩

/-- Python's `s[n:]` (drop the first `n` code points). -/
def pyDrop (n : Nat) (s : String) : String := ⟨s.toList.drop n⟩

/-- Python's `s.lower()` restricted to ASCII, the only case used here. -/
def strLower (s : String) : String := ⟨s.toList.map Char.toLower⟩

/-- Python's `s.startswith(pre)`. -/
def strStartsWith (s pre : String) : Bool := pre.toList.isPrefixOf s.toList

/-- `urllib.parse.parse_qsl` with default arguments (`keep_blank_values`
false, separator `&`): split the query on `&`, keep only fields that contain
`=` with a non-empty value part, and apply `unquote_plus` to both the name
and the value.  `parse_qs(q).get(k, [None])[0]` is the value of the first
returned pair whose name is `k`. -/
def parse_qsl (qs : String) : List (String × String) :=
  (splitOnChar '&' qs.toList).filterMap fun field =>
    match splitFirst '=' field with
    | none => none
    | some nv => if nv.2 = [] then none else some (unquote_plus ⟨nv.1⟩, unquote_plus ⟨nv.2⟩)

/-! ### `script_a.py`: listing-page parsing (`GuncadScraper.extract_links`).

A parsed listing page is the list of `div.grid-view-max` cards it contains.
A card carries its first `a[href]` anchor (if any) and, if present, the first
`h2`/`h3`/`h4` element whose class contains `"title"` case-insensitively.
Text fields hold the result of `get_text(strip=True)` on the corresponding
element. -/

/-- The anchor of a listing card: its `href`, its `title` attribute (absent
attribute is `none`), and its `get_text(strip=True)` text. -/
structure Anchor where
  href : String
  titleAttr : Option String
  text : String
deriving DecidableEq

/-- One `div.grid-view-max` card: the stripped text of a `title`-classed
heading when one exists, and the card's first anchor when one exists. -/
structure Card where
  heading : Option String
  anchor : Option Anchor
deriving DecidableEq

/-- The site origin used in `extract_links` to absolutize root-relative hrefs. -/
def origin : String := "https://guncadindex.com"

/-- Lines 74–76 of `script_a.py`: prefix the origin exactly when the href
starts with `/`; any other href is kept verbatim. -/
def absolutize (href : String) : String :=
  if strStartsWith href "/" then origin ++ href else href

/-- Lines 78–79 of `script_a.py`:
`(div.find([h2,h3,h4], class_=...) or a.get('title') or a).get_text(strip=True)`.
A found heading (bs4 tags are always truthy) contributes its stripped text;
otherwise a non-empty `title` attribute is selected, but it is a plain `str`,
so calling `get_text` on it raises `AttributeError` — modelled as `.error`;
otherwise the anchor's own stripped text is used. -/
def cardTitle (c : Card) (a : Anchor) : Except String String :=
  match c.heading with
  | some t => .ok t
  | none =>
    match a.titleAttr with
    | some t => if t = "" then .ok a.text else .error "AttributeError"
    | none => .ok a.text

/-- The record appended to `self.links` for a card (page, truncated title,
absolutized link).  `'Page': str(page_num)` is converted back by
`int(item['Page'])` in `save_links`, so the page is kept as a `Nat`. -/
structure ListingItem where
  page : Nat
  title : String
  link : String
deriving DecidableEq

/-- `GuncadScraper.extract_links` on a parsed page: process the cards in
order, skipping cards with no anchor and cards whose computed title is empty;
the boolean is `true` when processing aborted with the `AttributeError` of
`cardTitle` (the records accumulated before the abort are kept, matching the
in-place mutation of `self.links`). -/
def extract_links : List Card → Nat → List ListingItem × Bool
  | [], _ => ([], false)
  | c :: rest, p =>
    match c.anchor with
    | none => extract_links rest p
    | some a =>
      match cardTitle c a with
      | .error _ => ([], true)
      | .ok t =>
        let tail := extract_links rest p
        if t = "" then tail
        else (⟨p, pyTake 100 t, absolutize a.href⟩ :: tail.1, tail.2)

/-- Specification-side notion of an absolute URL (one that carries the
`http`/`https` scheme of this site), used to state the claims about
absolutization. -/
def isAbsoluteUrl (s : String) : Bool :=
  strStartsWith s "http://" || strStartsWith s "https://"

/-! ### `script_a.py`: the SQLite store.

The store is modelled as the lists of committed rows of the three tables
created by `init_db`, together with the next free `links` rowid.  `link` is
`UNIQUE` in the `links` table; `link_id` is `UNIQUE` in `details`; `exturl`
has no uniqueness constraint. -/

/-- A row of the `links` table. -/
structure LinkRow where
  id : Nat
  page : Nat
  title : String
  link : String
deriving DecidableEq

/-- A row of the `details` table (`link_id` is `UNIQUE`). -/
structure DetailRow where
  link_id : Nat
  description : String
deriving DecidableEq

/-- A row of the `exturl` table (no uniqueness constraint). -/
structure ExtRow where
  link_id : Nat
  external_url : String
  source_href : String
  link_text : String
deriving DecidableEq

/-- The committed store state. -/
structure DB where
  links : List LinkRow
  details : List DetailRow
  exturl : List ExtRow
  nextId : Nat
deriving DecidableEq

/-- The urls present in the `links` table. -/
def dbUrls (db : DB) : List String := db.links.map fun r => r.link

/-- One `INSERT OR IGNORE INTO links` statement: the `UNIQUE` constraint on
`link` makes the insert a no-op (`rowcount = 0`) when the url already exists,
otherwise a fresh row is appended.  The boolean is `cursor.rowcount > 0`. -/
def insertLink (db : DB) (it : ListingItem) : DB × Bool :=
  if db.links.any fun r => r.link == it.link then (db, false)
  else
    ({ db with
        links := db.links ++ [⟨db.nextId, it.page, it.title, it.link⟩],
        nextId := db.nextId + 1 },
      true)

/-- `GuncadScraper.save_links`: insert every accumulated record with
`INSERT OR IGNORE`, counting the newly created rows. -/
def save_links : DB → List ListingItem → DB × Nat
  | db, [] => (db, 0)
  | db, it :: rest =>
    let r := insertLink db it
    let s := save_links r.1 rest
    (s.1, (if r.2 then 1 else 0) + s.2)

/-- `GuncadScraper.get_unscraped`:
`SELECT l.id, l.link FROM links l LEFT JOIN details d ON l.id = d.link_id
WHERE d.link_id IS NULL` — the listings with no matching detail row. -/
def get_unscraped (db : DB) : List (Nat × String) :=
  (db.links.filter fun l => !(db.details.any fun d => d.link_id == l.id)).map
    fun l => (l.id, l.link)

/-! ### `script_a.py`: detail-page parsing and persistence
(`GuncadScraper.scrape_detail`). -/

/-- An anchor of a detail page, as seen by `soup.find_all('a', href=...)`:
its `href` and its `get_text(strip=True)` text. -/
structure DAnchor where
  href : String
  text : String
deriving DecidableEq

/-- The redirect marker filtered for on detail pages. -/
def outMarker : String := "/out/?u="

/-- `a['href'].split('?')[1]`: the part of the href between its first and
second `?` (only evaluated when the href contains `?`). -/
def queryOf (href : String) : String :=
  match splitOnChar '?' href.toList with
  | _ :: q :: _ => ⟨q⟩
  | _ => ""

/-- Line 160 of `script_a.py`:
`parse_qs(a['href'].split('?')[1]).get('u', [None])[0] if '?' in a['href'] else None`. -/
def uValueOf (href : String) : Option String :=
  if hasSubstr href "?" then
    ((parse_qsl (queryOf href)).find? fun p => p.1 == "u").map fun p => p.2
  else none

/-- One extracted external reference (the dict appended to `ext_links`). -/
structure ExtRef where
  external_url : String
  source_href : String
  link_text : String
deriving DecidableEq

/-- The reference built for an anchor whose `u` value is `u`:
`{'external_url': unquote(u), 'source_href': a['href'],
'link_text': a.get_text(strip=True)[:50]}`. -/
def mkExtRef (a : DAnchor) (u : String) : ExtRef :=
  ⟨unquote u, a.href, pyTake 50 a.text⟩

/-- The per-anchor step of the extraction loop: lines 160–166 of
`script_a.py` (`if u:` keeps only a present, non-empty `u` value). -/
def refOfAnchor (a : DAnchor) : Option ExtRef :=
  match uValueOf a.href with
  | some u => if u = "" then none else some (mkExtRef a u)
  | none => none

/-- Lines 158–166 of `script_a.py`: the external references extracted from a
detail page — the anchors whose href contains `/out/?u=`, each contributing
a reference when it has a usable `u` value. -/
def detail_refs (anchors : List DAnchor) : List ExtRef :=
  ((anchors.filter fun a => hasSubstr a.href outMarker).filterMap refOfAnchor)

/-- A fetched and parsed detail page: the extracted description (lines
154–155; `""` when the selector matches nothing) and the page's anchors. -/
structure DetailPage where
  description : String
  anchors : List DAnchor
deriving DecidableEq

/-- The mutable state touched by `scrape_detail`: the store and the
`failed_deep` list. -/
structure ScraperState where
  db : DB
  failed_deep : List String
deriving DecidableEq

/-- `INSERT OR REPLACE INTO details (link_id, description)`: the `UNIQUE`
constraint on `link_id` replaces any existing detail row for this listing. -/
def upsert_detail (db : DB) (link_id : Nat) (description : String) : DB :=
  { db with
      details := (db.details.filter fun d => d.link_id != link_id) ++
        [⟨link_id, description⟩] }

/-- The `INSERT INTO exturl` loop of lines 174–176. -/
def insert_exts (db : DB) (link_id : Nat) (refs : List ExtRef) : DB :=
  { db with
      exturl := db.exturl ++
        refs.map fun r => ⟨link_id, r.external_url, r.source_href, r.link_text⟩ }

/-- `GuncadScraper.scrape_detail` for one work item, with the fetch result at
its observable boundary: `none` models the empty string returned by `fetch`
on any HTTP/network failure (`if not html`), `some pg` a parsed page.  On
empty content the url is appended to `failed_deep` and nothing is written;
otherwise the description is upserted only when non-empty, and all extracted
references are inserted. -/
def scrape_detail (st : ScraperState) (link_id : Nat) (url : String)
    (fetched : Option DetailPage) : ScraperState :=
  match fetched with
  | none => { st with failed_deep := st.failed_deep ++ [url] }
  | some pg =>
    let refs := detail_refs pg.anchors
    let db1 := if pg.description = "" then st.db else upsert_detail st.db link_id pg.description
    { st with db := insert_exts db1 link_id refs }

/-! ### `script_b.py`: URL classification (`odysee_to_canonical`). -/

/-- The result of `urllib.parse.urlparse` restricted to the components the
scraper reads (`params` is never consulted). -/
structure UrlParts where
  scheme : String
  netloc : String
  path : String
  query : String
  fragment : String
deriving DecidableEq

/-- The characters allowed in a URL scheme by `urllib.parse`. -/
def schemeChar (c : Char) : Bool :=
  c.isAlpha || c.isDigit || c = '+' || c = '-' || c = '.'

/-- `urllib.parse.urlsplit` (CPython ≥ 3.11), the first stage of `urlparse`:
remove tab/CR/LF, split off a scheme when the text before the first `:` is
non-empty, starts with an ASCII letter and consists of scheme characters,
read a netloc after `//` up to the first `/`, `?` or `#`, then split the
fragment at the first `#` and the query at the first `?`.  A netloc with
unbalanced square brackets raises `ValueError ("Invalid IPv6 URL")`,
modelled as `.error`. -/
def urlsplit (url : String) : Except String UrlParts :=
  let cs := url.toList.filter fun c => !(c = '\t' || c = '\r' || c = '\n')
  let sp :=
    match splitFirst ':' cs with
    | some pa =>
      if pa.1 ≠ [] ∧ pa.1.all schemeChar ∧ (pa.1.headD ' ').isAlpha then
        (pa.1.map Char.toLower, pa.2)
      else ([], cs)
    | none => ([], cs)
  let np :=
    if ['/', '/'].isPrefixOf sp.2 then
      let after := sp.2.drop 2
      let netloc := after.takeWhile fun c => !(c = '/' || c = '?' || c = '#')
      (netloc, after.drop netloc.length)
    else ([], sp.2)
  if (np.1.contains '[' && !np.1.contains ']') ||
      (np.1.contains ']' && !np.1.contains '[') then
    .error "Invalid IPv6 URL"
  else
    let fp :=
      match splitFirst '#' np.2 with
      | some bf => bf
      | none => (np.2, [])
    let qp :=
      match splitFirst '?' fp.1 with
      | some bq => bq
      | none => (fp.1, [])
    .ok ⟨⟨sp.1⟩, ⟨np.1⟩, ⟨qp.1⟩, ⟨qp.2⟩, ⟨fp.2⟩⟩

/-- `urllib.parse.uses_params`: the schemes for which `urlparse` splits a
`;params` suffix off the last path segment. -/
def uses_params : List String :=
  ["", "ftp", "hdl", "prospero", "http", "imap", "https", "shttp", "rtsp",
   "rtspu", "sip", "sips", "mms", "sftp", "tel"]

/-- `urllib.parse._splitparams`, restricted to the path component it returns
(the discarded `params` part is never read by the scraper): when the path
contains `/`, cut at the first `;` at or after the last `/` (no occurrence
there leaves the path unchanged); otherwise cut at the first `;`. -/
def splitparams (path : List Char) : List Char :=
  let parts := splitOnChar '/' path
  if parts.length ≥ 2 then
    match splitFirst ';' (parts.getLastD []) with
    | some pv => List.intercalate ['/'] (parts.dropLast ++ [pv.1])
    | none => path
  else
    match splitFirst ';' path with
    | some pv => pv.1
    | none => path

/-- `urllib.parse.urlparse`: `urlsplit`, then `;params` are split off the
last path segment when the scheme is in `uses_params` and the path contains
`;` (so e.g. the path of `https://odysee.com/a;b` is `/a`). -/
def urlparse (url : String) : Except String UrlParts :=
  match urlsplit url with
  | .error e => .error e
  | .ok p =>
    if uses_params.contains p.scheme && hasSubstr p.path ";" then
      .ok { p with path := ⟨splitparams p.path.toList⟩ }
    else .ok p

/-- Lines 107–112 of `script_b.py`, the per-segment rewrite of the portal
path: a segment containing `:` but no `#` is split at its first `:` and
rejoined as `name#shortId`; any other segment is kept. -/
def segmentRewrite (seg : List Char) : List Char :=
  if containsSub [':'] seg && !containsSub ['#'] seg then
    match splitFirst ':' seg with
    | some nv => nv.1 ++ '#' :: nv.2
    | none => seg
  else seg

/-- Lines 107–115 of `script_b.py` applied to the already URL-decoded,
slash-trimmed path: rewrite every segment with `segmentRewrite`, join the
segments with `/` and trim slashes. -/
def canonicalizePath (path : String) : String :=
  pyStrip ⟨List.intercalate ['/'] ((splitOnChar '/' path.toList).map segmentRewrite)⟩ '/'

/-- `script_b.odysee_to_canonical`: a `lbry://` URI yields its remainder with
slashes trimmed; otherwise the URL is parsed with `urlparse`, the host must
contain `odysee.com` (case-insensitively) and the URL-decoded, slash-trimmed
path must be non-empty, in which case the path is canonicalized with
`canonicalizePath`.  `.ok none` is Python's `None` ("not a content-network
reference"); `.error` propagates the `ValueError` that `urlparse` can
raise. -/
def odysee_to_canonical (uri : String) : Except String (Option String) :=
  if strStartsWith uri "lbry://" then
    .ok (some (pyStrip (pyDrop 7 uri) '/'))
  else
    match urlparse uri with
    | .error e => .error e
    | .ok parsed =>
      if hasSubstr (strLower parsed.netloc) "odysee.com" = false then .ok none
      else
        let path := unquote (pyStrip parsed.path '/')
        if path = "" then .ok none
        else .ok (some (canonicalizePath path))

/-! ### `script_b.py`: the LBRY RPC fallback and the tiered download chain. -/

/-- A JSON value, with enough structure to express Python truthiness and the
dictionary lookups the scraper performs. -/
inductive JVal where
  | obj (fields : List (String × JVal))
  | arr (elems : List JVal)
  | str (s : String)
  | num (n : Int)
  | bool (b : Bool)
  | null

/-- Python truthiness of a decoded JSON value. -/
def truthy : JVal → Bool
  | .obj fields => !fields.isEmpty
  | .arr elems => !elems.isEmpty
  | .str s => !(s == "")
  | .num n => n != 0
  | .bool b => b
  | .null => false

/-- `d.get(k)` on a decoded JSON object (first binding wins). -/
def jsonGet (fields : List (String × JVal)) (k : String) : Option JVal :=
  (fields.find? fun p => p.1 == k).map fun p => p.2

/-- The observable outcome of the HTTP POST in `call_lbry_rpc`:
a `requests` exception (including `raise_for_status`), a body that is not
valid JSON, or a decoded JSON object. -/
inductive RpcOutcome where
  | transportError
  | invalidJson
  | ok (data : List (String × JVal))

/-- `script_b.call_lbry_rpc`: `None` on transport error or invalid JSON,
`None` when the response has an `"error"` key, `None` when `"result"` is
absent or JSON `null` (Python `None`), else the result value. -/
def call_lbry_rpc : RpcOutcome → Option JVal
  | .transportError => none
  | .invalidJson => none
  | .ok data =>
    if (jsonGet data "error").isSome then none
    else
      match jsonGet data "result" with
      | none => none
      | some .null => none
      | some v => some v

/-- `script_b.fallback_lbry_get` (Tier C): fail when `call_lbry_rpc` returns
`None` or a falsy result (`if not rpc_result`); succeed on a truthy result
object; a truthy non-object result makes `rpc_result.get("download_path")`
raise `AttributeError`, modelled as `.error`. -/
def fallback_lbry_get (r : RpcOutcome) : Except String Bool :=
  match call_lbry_rpc r with
  | none => .ok false
  | some v =>
    if truthy v = false then .ok false
    else
      match v with
      | .obj _ => .ok true
      | _ => .error "AttributeError"

/-- The observable behaviour of `lbryt.download_single` for one call: it
raised an exception with the given message, returned a `bool`, returned a
`dict`, or returned a value of any other type. -/
inductive LbryResult where
  | raised (msg : String)
  | bool (b : Bool)
  | dict (fields : List (String × JVal))
  | other

/-- The outcome of the download chain for one reference: whether it reported
success, and whether the Tier C fallback (`fallback_lbry_get`) was invoked. -/
structure DlOutcome where
  success : Bool
  usedFallback : Bool
deriving DecidableEq

/-- `script_b.handle_lbry_error`: an exception message containing
`"Cannot establish connection"` reports failure without falling back; any
other message falls through to `fallback_lbry_get`, whose result (abstracted
as `fallbackResult`) is returned. -/
def handle_lbry_error (msg : String) (fallbackResult : Bool) : DlOutcome :=
  if hasSubstr msg "Cannot establish connection" then ⟨false, false⟩
  else ⟨fallbackResult, true⟩

/-- `script_b.download_with_lbrytools`: fail outright when `lbrytools` is not
importable; dispatch an exception to `handle_lbry_error`; `True` succeeds;
`False` and any non-`bool`, non-`dict` result fall through to Tier C; a
`dict` result reports success without falling back (the
`download_path`/`file_path` lookup only selects the logged path).
`fallbackResult` abstracts the value `fallback_lbry_get` would return. -/
def download_with_lbrytools (installed : Bool) (r : LbryResult)
    (fallbackResult : Bool) : DlOutcome :=
  if installed = false then ⟨false, false⟩
  else
    match r with
    | .raised msg => handle_lbry_error msg fallbackResult
    | .bool b => if b then ⟨true, false⟩ else ⟨fallbackResult, true⟩
    | .dict _ => ⟨true, false⟩
    | .other => ⟨fallbackResult, true⟩

/-! ### Helper lemmas -/

theorem insertLink_of_mem (db : DB) (it : ListingItem) (h : it.link ∈ dbUrls db) :
    insertLink db it = (db, false) := by
  have hany : (db.links.any fun r => r.link == it.link) = true := by
    rw [List.any_eq_true]
    rcases List.mem_map.mp h with ⟨r, hr, hlink⟩
    exact ⟨r, hr, by simp [hlink]⟩
  simp [insertLink, hany]

theorem mem_dbUrls_insertLink (db : DB) (it : ListingItem) (u : String)
    (h : u ∈ dbUrls db) : u ∈ dbUrls (insertLink db it).1 := by
  unfold insertLink
  by_cases hany : (db.links.any fun r => r.link == it.link) = true
  · simpa [hany] using h
  · simp only [hany, if_false, Bool.false_eq_true]
    simp only [dbUrls, List.map_append] at h ⊢
    exact List.mem_append_left _ h

theorem self_mem_dbUrls_insertLink (db : DB) (it : ListingItem) :
    it.link ∈ dbUrls (insertLink db it).1 := by
  unfold insertLink
  by_cases hany : (db.links.any fun r => r.link == it.link) = true
  · have hmem : it.link ∈ dbUrls db := by
      rw [List.any_eq_true] at hany
      rcases hany with ⟨r, hr, hbeq⟩
      exact List.mem_map.mpr ⟨r, hr, by simpa using hbeq⟩
    simpa [hany] using hmem
  · simp [hany, dbUrls]

theorem nodup_dbUrls_insertLink (db : DB) (it : ListingItem)
    (h : (dbUrls db).Nodup) : (dbUrls (insertLink db it).1).Nodup := by
  unfold insertLink
  by_cases hany : (db.links.any fun r => r.link == it.link) = true
  · simpa [hany] using h
  · have hnot : it.link ∉ dbUrls db := by
      intro hmem
      apply hany
      rw [List.any_eq_true]
      rcases List.mem_map.mp hmem with ⟨r, hr, hlink⟩
      exact ⟨r, hr, by simp [hlink]⟩
    simp only [hany, if_false, Bool.false_eq_true]
    simp only [dbUrls, List.map_append, List.map_cons, List.map_nil] at h hnot ⊢
    refine List.Nodup.append h (List.nodup_singleton _) ?_
    intro x hx hy
    simp only [List.mem_singleton] at hy
    subst hy
    exact hnot hx

theorem mem_dbUrls_save_links (items : List ListingItem) :
    ∀ db u, u ∈ dbUrls db → u ∈ dbUrls (save_links db items).1 := by
  induction items with
  | nil => intro db u h; exact h
  | cons it rest ih =>
    intro db u h
    show u ∈ dbUrls (save_links (insertLink db it).1 rest).1
    exact ih _ _ (mem_dbUrls_insertLink _ _ _ h)

theorem links_mem_dbUrls_save_links (items : List ListingItem) :
    ∀ db, ∀ it ∈ items, it.link ∈ dbUrls (save_links db items).1 := by
  induction items with
  | nil => intro db it h; cases h
  | cons hd rest ih =>
    intro db it hmem
    rcases List.mem_cons.mp hmem with h | h
    · subst h
      show it.link ∈ dbUrls (save_links (insertLink db it).1 rest).1
      exact mem_dbUrls_save_links rest _ _ (self_mem_dbUrls_insertLink db it)
    · show it.link ∈ dbUrls (save_links (insertLink db hd).1 rest).1
      exact ih _ it h

theorem save_links_noop (items : List ListingItem) :
    ∀ db, (∀ it ∈ items, it.link ∈ dbUrls db) → save_links db items = (db, 0) := by
  induction items with
  | nil => intro db _; rfl
  | cons hd rest ih =>
    intro db h
    have h1 : insertLink db hd = (db, false) :=
      insertLink_of_mem db hd (h hd (List.mem_cons_self _ _))
    have h2 : save_links db rest = (db, 0) :=
      ih db fun it hit => h it (List.mem_cons_of_mem _ hit)
    show (let r := insertLink db hd
          let s := save_links r.1 rest
          (s.1, (if r.2 then 1 else 0) + s.2)) = (db, 0)
    rw [h1]
    simpa using h2

theorem nodup_dbUrls_save_links (items : List ListingItem) :
    ∀ db, (dbUrls db).Nodup → (dbUrls (save_links db items).1).Nodup := by
  induction items with
  | nil => intro db h; exact h
  | cons hd rest ih =>
    intro db h
    show (dbUrls (save_links (insertLink db hd).1 rest).1).Nodup
    exact ih _ (nodup_dbUrls_insertLink db hd h)

/-! ### Claim theorems -/

/-- Claim C1: running Stage 1 persistence twice over the same records against
the same store inserts each unique url at most once — an insert for an
already-present url leaves the store unchanged and is not counted, so a
second identical `save_links` run leaves the store unchanged and returns an
inserted count of 0, and url-uniqueness of the `links` table is preserved. -/
theorem save_links_idempotent (db : DB) (items : List ListingItem)
    (hnd : (dbUrls db).Nodup) :
    (∀ it ∈ items, it.link ∈ dbUrls db → insertLink db it = (db, false)) ∧
    save_links (save_links db items).1 items = ((save_links db items).1, 0) ∧
    (dbUrls (save_links db items).1).Nodup :=
  ⟨fun it _ h => insertLink_of_mem db it h,
   save_links_noop items _ fun it hit => links_mem_dbUrls_save_links items db it hit,
   nodup_dbUrls_save_links items db hnd⟩

/-- Witness for C1 at a concrete store and record list. -/
theorem save_links_idempotent_witness :
    save_links (save_links ⟨[], [], [], 1⟩ [⟨1, "A", "u1"⟩, ⟨2, "B", "u1"⟩]).1
        [⟨1, "A", "u1"⟩, ⟨2, "B", "u1"⟩] =
      ((save_links ⟨[], [], [], 1⟩ [⟨1, "A", "u1"⟩, ⟨2, "B", "u1"⟩]).1, 0) :=
  (save_links_idempotent ⟨[], [], [], 1⟩ [⟨1, "A", "u1"⟩, ⟨2, "B", "u1"⟩]
    (by simp [dbUrls])).2.1

theorem isPrefixOf_append_of_isPrefixOf (pre s : List Char) (t : List Char)
    (h : pre.isPrefixOf s = true) : pre.isPrefixOf (s ++ t) = true := by
  rw [List.isPrefixOf_iff_prefix] at h ⊢
  exact h.trans (List.prefix_append s t)

theorem isAbsoluteUrl_absolutize (href : String)
    (h : strStartsWith href "/" = true ∨ isAbsoluteUrl href = true) :
    isAbsoluteUrl (absolutize href) = true := by
  unfold absolutize
  by_cases hs : strStartsWith href "/" = true
  · simp only [hs, if_true]
    unfold isAbsoluteUrl strStartsWith
    apply Bool.or_eq_true_iff.mpr
    right
    have : (origin ++ href).toList = origin.toList ++ href.toList :=
      String.data_append origin href
    rw [this]
    exact isPrefixOf_append_of_isPrefixOf _ _ _ (by decide)
  · rcases h with h | h
    · exact absurd h hs
    · simpa [hs] using h

/-- Claim C2 (amended): every record extracted in listing mode has a title of
length at most 100, and its url is the absolutization of the anchor's href of
one of the page's cards — prefixed with the site origin when the href starts
with `/`, kept verbatim otherwise — so the url is absolute whenever the
source href was root-relative or already absolute (but a relative href that
does not start with `/` is kept relative). -/
theorem extract_links_titles_and_links (cards : List Card) (p : Nat) :
    ∀ r ∈ (extract_links cards p).1,
      r.title.length ≤ 100 ∧
      ∃ c ∈ cards, ∃ a, c.anchor = some a ∧ r.link = absolutize a.href ∧
        ((strStartsWith a.href "/" = true ∨ isAbsoluteUrl a.href = true) →
          isAbsoluteUrl r.link = true) := by
  induction cards with
  | nil => intro r hr; simp [extract_links] at hr
  | cons c rest ih =>
    intro r hr
    have step : ∀ hm : r ∈ (extract_links rest p).1,
        r.title.length ≤ 100 ∧
        ∃ c' ∈ c :: rest, ∃ a, c'.anchor = some a ∧ r.link = absolutize a.href ∧
          ((strStartsWith a.href "/" = true ∨ isAbsoluteUrl a.href = true) →
            isAbsoluteUrl r.link = true) := by
      intro hm
      rcases ih r hm with ⟨h1, c', hc', rest'⟩
      exact ⟨h1, c', List.mem_cons_of_mem _ hc', rest'⟩
    cases hc : c.anchor with
    | none => exact step (by simpa [extract_links, hc] using hr)
    | some a =>
      cases ht : cardTitle c a with
      | error e => simp [extract_links, hc, ht] at hr
      | ok t =>
        by_cases hte : t = ""
        · exact step (by simpa [extract_links, hc, ht, hte] using hr)
        · have hr' : r = ⟨p, pyTake 100 t, absolutize a.href⟩ ∨
              r ∈ (extract_links rest p).1 := by
            simpa [extract_links, hc, ht, hte] using hr
          rcases hr' with rfl | hm
          · refine ⟨?_, c, List.mem_cons_self _ _, a, hc, rfl, ?_⟩
            · show (pyTake 100 t).length ≤ 100
              exact List.length_take_le 100 t.toList
            · intro h
              exact isAbsoluteUrl_absolutize a.href h
          · exact step hm

/-- Witness for C2 (amended) at a concrete page with a root-relative href. -/
theorem extract_links_titles_and_links_witness :
    (⟨3, "Widget", "https://guncadindex.com/detail/1"⟩ : ListingItem).title.length ≤ 100 ∧
    ∃ c ∈ [(⟨none, some ⟨"/detail/1", none, "Widget"⟩⟩ : Card)], ∃ a, c.anchor = some a ∧
      (⟨3, "Widget", "https://guncadindex.com/detail/1"⟩ : ListingItem).link =
        absolutize a.href ∧
      ((strStartsWith a.href "/" = true ∨ isAbsoluteUrl a.href = true) →
        isAbsoluteUrl
          (⟨3, "Widget", "https://guncadindex.com/detail/1"⟩ : ListingItem).link = true) :=
  extract_links_titles_and_links [⟨none, some ⟨"/detail/1", none, "Widget"⟩⟩] 3
    ⟨3, "Widget", "https://guncadindex.com/detail/1"⟩ (by decide)

/-- Counterexample to claim C2 as stated: a card whose anchor href is
`detail.html` (relative but not root-relative) yields a record whose url is
kept verbatim and is not absolute. -/
theorem extract_links_absolute_counterexample :
    ¬ ∀ r ∈ (extract_links [⟨none, some ⟨"detail.html", none, "Widget"⟩⟩] 1).1,
        isAbsoluteUrl r.link = true := by decide

/-- Claim C9: a card whose anchor exists but whose computed best-effort title
is empty is skipped silently — it contributes no record at all to the
extraction of the page. -/
theorem extract_links_skips_empty_title (p : Nat) (c : Card) (a : Anchor)
    (rest : List Card) (ha : c.anchor = some a) (ht : cardTitle c a = .ok "") :
    extract_links (c :: rest) p = extract_links rest p := by
  simp [extract_links, ha, ht]

/-- Witness for C9: a card with an anchor and an empty-texted title heading. -/
theorem extract_links_skips_empty_title_witness :
    extract_links [⟨some "", some ⟨"/x", none, "text"⟩⟩] 1 = extract_links [] 1 :=
  extract_links_skips_empty_title 1 ⟨some "", some ⟨"/x", none, "text"⟩⟩
    ⟨"/x", none, "text"⟩ [] rfl rfl

theorem refOfAnchor_eq_some (a : DAnchor) (r : ExtRef) :
    refOfAnchor a = some r ↔
      ∃ u, uValueOf a.href = some u ∧ u ≠ "" ∧ r = mkExtRef a u := by
  unfold refOfAnchor
  cases h : uValueOf a.href with
  | none => simp
  | some u =>
    by_cases hu : u = ""
    · simp [hu]
    · simp [hu, eq_comm]

/-- Claim C3: in detail mode, exactly the anchors whose href contains the
`/out/?u=` marker and carry a usable (present, non-empty) `u` query value
yield an external reference; such a reference has `external_url` equal to the
URL-unescape of the parsed `u` value, `source_href` equal to the original
href, and `link_text` equal to the anchor's visible text truncated to at most
50 characters. -/
theorem detail_refs_characterization (anchors : List DAnchor) :
    (∀ r : ExtRef, r ∈ detail_refs anchors ↔
      ∃ a ∈ anchors, hasSubstr a.href outMarker = true ∧
        ∃ u, uValueOf a.href = some u ∧ u ≠ "" ∧ r = mkExtRef a u) ∧
    ∀ r ∈ detail_refs anchors, r.link_text.length ≤ 50 := by
  have hchar : ∀ r : ExtRef, r ∈ detail_refs anchors ↔
      ∃ a ∈ anchors, hasSubstr a.href outMarker = true ∧
        ∃ u, uValueOf a.href = some u ∧ u ≠ "" ∧ r = mkExtRef a u := by
    intro r
    unfold detail_refs
    rw [List.mem_filterMap]
    constructor
    · rintro ⟨a, ha, hf⟩
      rw [List.mem_filter] at ha
      exact ⟨a, ha.1, ha.2, (refOfAnchor_eq_some a r).mp hf⟩
    · rintro ⟨a, ha, hm, hu⟩
      exact ⟨a, List.mem_filter.mpr ⟨ha, hm⟩, (refOfAnchor_eq_some a r).mpr hu⟩
  refine ⟨hchar, ?_⟩
  intro r hr
  obtain ⟨a, -, -, u, -, -, rfl⟩ := (hchar r).mp hr
  show (pyTake 50 a.text).length ≤ 50
  exact List.length_take_le 50 a.text.toList

/-- Witness for C3 at a concrete marker anchor. -/
theorem detail_refs_characterization_witness :
    (mkExtRef ⟨"/out/?u=http%3A%2F%2Fexample.com", "Example"⟩
        "http://example.com").link_text.length ≤ 50 :=
  (detail_refs_characterization [⟨"/out/?u=http%3A%2F%2Fexample.com", "Example"⟩]).2
    (mkExtRef ⟨"/out/?u=http%3A%2F%2Fexample.com", "Example"⟩ "http://example.com")
    (by decide)

/-- Claim C4: `get_unscraped` returns exactly the listings with no committed
detail row — a pair `(i, u)` is in the undetailed work set if and only if
some `links` row has id `i` and url `u` and no `details` row references it. -/
theorem get_unscraped_iff (db : DB) (i : Nat) (u : String) :
    (i, u) ∈ get_unscraped db ↔
      ∃ l ∈ db.links, l.id = i ∧ l.link = u ∧
        ¬ ∃ d ∈ db.details, d.link_id = l.id := by
  unfold get_unscraped
  rw [List.mem_map]
  constructor
  · rintro ⟨l, hl, heq⟩
    rw [List.mem_filter] at hl
    obtain ⟨hmem, hfil⟩ := hl
    obtain ⟨hid, hlink⟩ := Prod.mk.injEq .. ▸ heq
    refine ⟨l, hmem, hid, hlink, ?_⟩
    rintro ⟨d, hd, he⟩
    rw [Bool.not_eq_eq_eq_not, Bool.not_true, List.any_eq_false] at hfil
    exact hfil d hd (by simp [he])
  · rintro ⟨l, hmem, hid, hlink, hnod⟩
    refine ⟨l, List.mem_filter.mpr ⟨hmem, ?_⟩, by simp [hid, hlink]⟩
    rw [Bool.not_eq_eq_eq_not, Bool.not_true, List.any_eq_false]
    intro d hd hbeq
    exact hnod ⟨d, hd, by simpa using hbeq⟩

/-- Claim C5: canonicalization.  A native-scheme `lbry://` URI yields its
remainder with slashes trimmed (e.g. `lbry://foo/bar` yields `foo/bar`); for
every parsed URL whose host contains the portal host and whose URL-decoded,
slash-trimmed path is non-empty, the result is that path with each
colon-but-no-hash segment rewritten `name:shortId → name#shortId`, segments
joined with `/` and slashes trimmed (e.g. `https://odysee.com/Item:abc123`
yields `Item#abc123`); every parsed URL with a non-matching host, and every
parsed URL with an empty decoded path, yields `none`. -/
theorem odysee_to_canonical_cases :
    (∀ uri : String, strStartsWith uri "lbry://" = true →
      odysee_to_canonical uri = .ok (some (pyStrip (pyDrop 7 uri) '/'))) ∧
    odysee_to_canonical "lbry://foo/bar" = .ok (some "foo/bar") ∧
    (∀ uri parts, strStartsWith uri "lbry://" = false → urlparse uri = .ok parts →
      hasSubstr (strLower parts.netloc) "odysee.com" = true →
      unquote (pyStrip parts.path '/') ≠ "" →
      odysee_to_canonical uri =
        .ok (some (canonicalizePath (unquote (pyStrip parts.path '/'))))) ∧
    odysee_to_canonical "https://odysee.com/Item:abc123" = .ok (some "Item#abc123") ∧
    (∀ uri parts, strStartsWith uri "lbry://" = false → urlparse uri = .ok parts →
      hasSubstr (strLower parts.netloc) "odysee.com" = false →
      odysee_to_canonical uri = .ok none) ∧
    (∀ uri parts, strStartsWith uri "lbry://" = false → urlparse uri = .ok parts →
      unquote (pyStrip parts.path '/') = "" →
      odysee_to_canonical uri = .ok none) := by
  refine ⟨?_, rfl, ?_, rfl, ?_, ?_⟩
  · intro uri h
    simp [odysee_to_canonical, h]
  · intro uri parts h1 h2 h3 h4
    simp [odysee_to_canonical, h1, h2, h3, h4]
  · intro uri parts h1 h2 h3
    simp [odysee_to_canonical, h1, h2, h3]
  · intro uri parts h1 h2 h3
    by_cases hh : hasSubstr (strLower parts.netloc) "odysee.com" = false
    · simp [odysee_to_canonical, h1, h2, hh]
    · simp [odysee_to_canonical, h1, h2, hh, h3]

/-- Witness for C5 at concrete native, portal (with and without a `;params`
suffix), non-portal and empty-path inputs. -/
theorem odysee_to_canonical_cases_witness :
    odysee_to_canonical "lbry://foo/bar" =
      .ok (some (pyStrip (pyDrop 7 "lbry://foo/bar") '/')) ∧
    odysee_to_canonical "https://odysee.com/Item:abc123" = .ok (some "Item#abc123") ∧
    odysee_to_canonical "https://odysee.com/a;b" = .ok (some "a") ∧
    odysee_to_canonical "https://odysee.com/;p" = .ok none ∧
    odysee_to_canonical "https://example.com/page" = .ok none ∧
    odysee_to_canonical "https://odysee.com///" = .ok none :=
  ⟨odysee_to_canonical_cases.1 "lbry://foo/bar" (by decide),
   odysee_to_canonical_cases.2.2.1 "https://odysee.com/Item:abc123"
     ⟨"https", "odysee.com", "/Item:abc123", "", ""⟩ (by decide) (by rfl)
     (by decide) (by decide),
   odysee_to_canonical_cases.2.2.1 "https://odysee.com/a;b"
     ⟨"https", "odysee.com", "/a", "", ""⟩ (by decide) (by rfl)
     (by decide) (by decide),
   odysee_to_canonical_cases.2.2.2.2.2 "https://odysee.com/;p"
     ⟨"https", "odysee.com", "/", "", ""⟩ (by decide) (by rfl) (by decide),
   odysee_to_canonical_cases.2.2.2.2.1 "https://example.com/page"
     ⟨"https", "example.com", "/page", "", ""⟩ (by decide) (by rfl) (by decide),
   odysee_to_canonical_cases.2.2.2.2.2 "https://odysee.com///"
     ⟨"https", "odysee.com", "///", "", ""⟩ (by decide) (by rfl) (by decide)⟩

/-- Claim C6: in the decentralized download chain, a Tier A exception whose
message contains the daemon-unreachable marker reports failure without
invoking the Tier C fallback; any other Tier A exception, a `False` result,
or an unrecognized result shape falls through to Tier C; a dict result is
success regardless of its contents. -/
theorem download_with_lbrytools_tiers :
    (∀ msg fb, hasSubstr msg "Cannot establish connection" = true →
      download_with_lbrytools true (.raised msg) fb = ⟨false, false⟩) ∧
    (∀ msg fb, hasSubstr msg "Cannot establish connection" = false →
      download_with_lbrytools true (.raised msg) fb = ⟨fb, true⟩) ∧
    (∀ fb, download_with_lbrytools true (.bool false) fb = ⟨fb, true⟩) ∧
    (∀ fb, download_with_lbrytools true .other fb = ⟨fb, true⟩) ∧
    (∀ fields fb, download_with_lbrytools true (.dict fields) fb = ⟨true, false⟩) := by
  refine ⟨?_, ?_, ?_, fun fb => rfl, fun fields fb => rfl⟩
  · intro msg fb h
    simp [download_with_lbrytools, handle_lbry_error, h]
  · intro msg fb h
    simp [download_with_lbrytools, handle_lbry_error, h]
  · intro fb
    rfl

/-- Witness for C6 at concrete exception messages and results. -/
theorem download_with_lbrytools_tiers_witness :
    download_with_lbrytools true
        (.raised "Cannot establish connection to use lbrynet") true =
      ⟨false, false⟩ ∧
    download_with_lbrytools true (.raised "timeout") false = ⟨false, true⟩ ∧
    download_with_lbrytools true (.bool false) true = ⟨true, true⟩ :=
  ⟨download_with_lbrytools_tiers.1 "Cannot establish connection to use lbrynet" true
     (by decide),
   download_with_lbrytools_tiers.2.1 "timeout" false (by decide),
   download_with_lbrytools_tiers.2.2.1 true⟩

/-- Counterexample to claim C7 as stated: the RPC response
`{"result": {}}` contains a `result` object and no `error` key, yet
`fallback_lbry_get` reports failure, because `if not rpc_result` treats the
empty (falsy) object as "no result". -/
theorem fallback_lbry_get_empty_obj_counterexample :
    jsonGet [("result", JVal.obj [])] "error" = none ∧
    jsonGet [("result", JVal.obj [])] "result" = some (.obj []) ∧
    fallback_lbry_get (.ok [("result", JVal.obj [])]) = .ok false :=
  ⟨rfl, rfl, rfl⟩

/-- Claim C7 (amended): the Tier C fallback reports success if and only if
the RPC response decodes to JSON with no `error` key and a *non-empty*
`result` object; a transport error, invalid JSON, an `error` key, or an
absent `result` field yields failure (and so does an empty result object). -/
theorem fallback_lbry_get_success_iff (r : RpcOutcome) :
    (fallback_lbry_get r = .ok true ↔
      ∃ data, r = .ok data ∧ jsonGet data "error" = none ∧
        ∃ fields, jsonGet data "result" = some (.obj fields) ∧ fields ≠ []) ∧
    fallback_lbry_get .transportError = .ok false ∧
    fallback_lbry_get .invalidJson = .ok false ∧
    (∀ data, (jsonGet data "error").isSome = true →
      fallback_lbry_get (.ok data) = .ok false) ∧
    (∀ data, jsonGet data "result" = none →
      fallback_lbry_get (.ok data) = .ok false) := by
  refine ⟨?_, rfl, rfl, ?_, ?_⟩
  · constructor
    · intro h
      cases r with
      | transportError => simp [fallback_lbry_get, call_lbry_rpc] at h
      | invalidJson => simp [fallback_lbry_get, call_lbry_rpc] at h
      | ok data =>
        refine ⟨data, rfl, ?_⟩
        by_cases he : (jsonGet data "error").isSome = true
        · simp [fallback_lbry_get, call_lbry_rpc, he] at h
        · rw [Bool.not_eq_true] at he
          have hen : jsonGet data "error" = none := by
            cases hje : jsonGet data "error" with
            | none => rfl
            | some v => rw [hje] at he; simp at he
          refine ⟨hen, ?_⟩
          cases hres : jsonGet data "result" with
          | none => simp [fallback_lbry_get, call_lbry_rpc, he, hres] at h
          | some v =>
            cases v with
            | null => simp [fallback_lbry_get, call_lbry_rpc, he, hres] at h
            | obj fields =>
              refine ⟨fields, rfl, fun hnil => ?_⟩
              subst hnil
              simp [fallback_lbry_get, call_lbry_rpc, he, hres, truthy] at h
            | arr elems =>
              by_cases ht : truthy (.arr elems) = false <;>
                simp [fallback_lbry_get, call_lbry_rpc, he, hres, ht] at h
            | str s =>
              by_cases ht : truthy (.str s) = false <;>
                simp [fallback_lbry_get, call_lbry_rpc, he, hres, ht] at h
            | num n =>
              by_cases ht : truthy (.num n) = false <;>
                simp [fallback_lbry_get, call_lbry_rpc, he, hres, ht] at h
            | bool b =>
              by_cases ht : truthy (.bool b) = false <;>
                simp [fallback_lbry_get, call_lbry_rpc, he, hres, ht] at h
    · rintro ⟨data, rfl, herr, fields, hres, hne⟩
      cases fields with
      | nil => exact absurd rfl hne
      | cons f rest =>
        simp [fallback_lbry_get, call_lbry_rpc, herr, hres, truthy]
  · intro data h
    simp [fallback_lbry_get, call_lbry_rpc, h]
  · intro data h
    simp [fallback_lbry_get, call_lbry_rpc, h]

/-- Witness for C7 (amended) at a concrete error response and a concrete
missing-result response. -/
theorem fallback_lbry_get_success_iff_witness :
    fallback_lbry_get (.ok [("error", JVal.str "not found")]) = .ok false ∧
    fallback_lbry_get (.ok [("jsonrpc", JVal.str "2.0")]) = .ok false :=
  ⟨(fallback_lbry_get_success_iff (.ok [("error", JVal.str "not found")])).2.2.2.1
     [("error", JVal.str "not found")] rfl,
   (fallback_lbry_get_success_iff (.ok [("jsonrpc", JVal.str "2.0")])).2.2.2.2
     [("jsonrpc", JVal.str "2.0")] rfl⟩

/-- Claim C8: a work item whose detail fetch returns empty content only
appends its url to the failure list — the store is untouched (no detail row,
no external-reference rows), so the undetailed work set is unchanged and the
listing will be selected again on the next run. -/
theorem scrape_detail_empty_fetch (st : ScraperState) (link_id : Nat) (url : String) :
    scrape_detail st link_id url none = ⟨st.db, st.failed_deep ++ [url]⟩ ∧
    get_unscraped (scrape_detail st link_id url none).db = get_unscraped st.db :=
  ⟨rfl, rfl⟩

/-- Claim C10: a fetched detail page whose extracted description is empty
gets no detail row (the links and details tables are untouched, so the
listing stays in the undetailed work set), while its external references are
inserted anyway — and a second identical scrape inserts them again, growing
the `exturl` table by twice the reference count over two runs. -/
theorem scrape_detail_empty_description (st : ScraperState) (link_id : Nat)
    (url : String) (pg : DetailPage) (hd : pg.description = "") :
    (scrape_detail st link_id url (some pg)).db.details = st.db.details ∧
    (scrape_detail st link_id url (some pg)).db.links = st.db.links ∧
    (scrape_detail st link_id url (some pg)).db.exturl =
      st.db.exturl ++ (detail_refs pg.anchors).map
        (fun r => ⟨link_id, r.external_url, r.source_href, r.link_text⟩) ∧
    get_unscraped (scrape_detail st link_id url (some pg)).db = get_unscraped st.db ∧
    (scrape_detail (scrape_detail st link_id url (some pg)) link_id url
        (some pg)).db.exturl.length =
      st.db.exturl.length + 2 * (detail_refs pg.anchors).length := by
  refine ⟨by simp [scrape_detail, hd, insert_exts], by simp [scrape_detail, hd, insert_exts],
    by simp [scrape_detail, hd, insert_exts], by simp [scrape_detail, hd, insert_exts,
      get_unscraped], ?_⟩
  simp only [scrape_detail, hd, if_pos, insert_exts, List.length_append, List.length_map]
  omega

/-- Witness for C10 at a concrete store and detail page with one reference. -/
theorem scrape_detail_empty_description_witness :
    (scrape_detail (scrape_detail ⟨⟨[⟨1, 1, "T", "u"⟩], [], [], 2⟩, []⟩ 1 "u"
          (some ⟨"", [⟨"/out/?u=x", "t"⟩]⟩)) 1 "u"
        (some ⟨"", [⟨"/out/?u=x", "t"⟩]⟩)).db.exturl.length =
      (⟨[⟨1, 1, "T", "u"⟩], [], [], 2⟩ : DB).exturl.length +
        2 * (detail_refs [⟨"/out/?u=x", "t"⟩]).length :=
  (scrape_detail_empty_description ⟨⟨[⟨1, 1, "T", "u"⟩], [], [], 2⟩, []⟩ 1 "u"
    ⟨"", [⟨"/out/?u=x", "t"⟩]⟩ rfl).2.2.2.2

end GuncadSpec
